import Mathlib

/-!
Shallow embedding of the ToDoList project/task manager
(`models/task.py`, `models/project.py`, `services/project_manager.py`).

The Python manager keeps an insertion-ordered dict from project name to
project; we model it as an association list with dict semantics (assignment
to an absent key appends, assignment to a present key updates in place,
deletion removes the entry).  Every manager operation returns its result
together with the post-state, so that operations that mutate the shared
task object before raising (`update_task`) are captured faithfully.
`created_at` fields (wall-clock timestamps) are omitted: no operation or
claim reads them.
-/

set_option autoImplicit false

namespace ToDoList

/-- One constructor per `raise ToDoError(...)` site in the source; the
capacity errors carry the cap that the Python f-string interpolates. -/
inductive ToDoError where
  | emptyProjectName
  | maxProjects (cap : Nat)
  | duplicateProjectName
  | projectNotFound
  | emptyNewProjectName
  | duplicateNewProjectName
  | emptyTaskTitle
  | titleTooLong
  | descriptionTooLong
  | missingDeadline
  | invalidDeadline
  | invalidStatus
  | maxTasks (cap : Nat)
  | duplicateTaskTitle
  | taskNotFound
  | invalidDeadlineFormat
  deriving DecidableEq, Repr

instance {ε α : Type} [DecidableEq ε] [DecidableEq α] : DecidableEq (Except ε α) := fun a b =>
  match a, b with
  | .error e, .error f => decidable_of_iff (e = f) (by simp)
  | .ok x, .ok y => decidable_of_iff (x = y) (by simp)
  | .error _, .ok _ => .isFalse (by simp)
  | .ok _, .error _ => .isFalse (by simp)

/-- The ASCII whitespace characters removed by Python `str.strip()`. -/
def isPySpace (c : Char) : Bool :=
  c = ' ' || c = '\t' || c = '\n' || c = '\x0d' || c = '\x0b' || c = '\x0c'

/-- Python `str.strip()`: drop whitespace from both ends. -/
def pyStrip (s : String) : String :=
  String.mk (((s.toList.dropWhile isPySpace).reverse.dropWhile isPySpace).reverse)

def digitVal (c : Char) : Nat := c.toNat - 48

/-- Match one or two leading digits (the `\d\d?` of CPython strptime for
`%m`/`%d`), greedily, returning the value and the rest of the input. -/
def takeDigits12 : List Char → Option (Nat × List Char)
  | a :: b :: rest =>
    if a.isDigit then
      if b.isDigit then some (digitVal a * 10 + digitVal b, rest)
      else some (digitVal a, b :: rest)
    else none
  | [a] => if a.isDigit then some (digitVal a, []) else none
  | [] => none

/-- Split a character list as `\d\d\d\d-\d\d?-\d\d?` (full match, as
strptime rejects unconverted trailing data). -/
def splitYMD : List Char → Option (Nat × Nat × Nat)
  | y1 :: y2 :: y3 :: y4 :: '-' :: rest =>
    if y1.isDigit && y2.isDigit && y3.isDigit && y4.isDigit then
      match takeDigits12 rest with
      | some (mo, '-' :: rest2) =>
        match takeDigits12 rest2 with
        | some (d, []) =>
          some (digitVal y1 * 1000 + digitVal y2 * 100 + digitVal y3 * 10 + digitVal y4, mo, d)
        | _ => none
      | _ => none
    else none
  | _ => none

def isLeapYear (y : Nat) : Bool :=
  y % 4 == 0 && (y % 100 != 0 || y % 400 == 0)

def daysInMonth (y mo : Nat) : Nat :=
  if mo = 2 then (if isLeapYear y then 29 else 28)
  else if mo = 4 || mo = 6 || mo = 9 || mo = 11 then 30
  else 31

/-- `datetime.strptime(s, '%Y-%m-%d')` succeeds: four-digit year, one- or
two-digit month and day separated by dashes, nothing left over, and the
triple is a real proleptic-Gregorian date with year at least 1
(`datetime.MINYEAR`). -/
def parseDateYMD (s : String) : Bool :=
  match splitYMD s.toList with
  | some (y, mo, d) => 1 ≤ y && 1 ≤ mo && mo ≤ 12 && 1 ≤ d && d ≤ daysInMonth y mo
  | none => false

/-- `models/task.py`, without `created_at`. -/
structure Task where
  title : String
  description : String
  status : String
  deadline : String
  deriving DecidableEq, Repr

def validStatus (s : String) : Bool :=
  s = "todo" || s = "doing" || s = "done"

/-- `Task.mark_status`: sets the status or raises on an illegal one. -/
def Task.mark_status (t : Task) (newStatus : String) : Except ToDoError Task :=
  if validStatus newStatus then .ok { t with status := newStatus }
  else .error .invalidStatus

/-- `models/project.py`, without `created_at`. -/
structure Project where
  name : String
  description : String
  tasks : List Task
  deriving DecidableEq, Repr

/-- `Project.add_task`: cap check first, then sibling-title duplicate
check, then append at the end. -/
def Project.add_task (maxTasks : Nat) (p : Project) (t : Task) : Except ToDoError Project :=
  if maxTasks ≤ p.tasks.length then .error (.maxTasks maxTasks)
  else if p.tasks.any (fun u => u.title == t.title) then .error .duplicateTaskTitle
  else .ok { p with tasks := p.tasks ++ [t] }

/-- The loop body of `Project.remove_task`: delete the first task with the
given title, `none` when no task matches. -/
def removeFirstTask : List Task → String → Option (List Task)
  | [], _ => none
  | t :: rest, title =>
    if t.title == title then some rest
    else (removeFirstTask rest title).map (fun l => t :: l)

/-- `Project.remove_task`. -/
def Project.remove_task (p : Project) (taskTitle : String) : Except ToDoError Project :=
  match removeFirstTask p.tasks taskTitle with
  | some l => .ok { p with tasks := l }
  | none => .error .taskNotFound

/-- `Project.get_task`: first task with the given title. -/
def Project.get_task (p : Project) (taskTitle : String) : Except ToDoError Task :=
  match p.tasks.find? (fun t => t.title == taskTitle) with
  | some t => .ok t
  | none => .error .taskNotFound

/-- The manager's `self.projects` dict: insertion-ordered name/project
bindings. -/
structure Manager where
  projects : List (String × Project)
  deriving DecidableEq, Repr

/-- Python `name in dict`. -/
def dictMem (l : List (String × Project)) (k : String) : Bool :=
  l.any (fun kv => kv.1 == k)

/-- Python `dict.get(name)` / `dict[name]` lookup. -/
def dictGet? (l : List (String × Project)) (k : String) : Option Project :=
  (l.find? (fun kv => kv.1 == k)).map (fun kv => kv.2)

/-- Python `dict[name] = proj`: update in place when the key is present,
append at the end when it is absent. -/
def dictSet (l : List (String × Project)) (k : String) (v : Project) : List (String × Project) :=
  if dictMem l k then l.map (fun kv => if kv.1 == k then (k, v) else kv)
  else l ++ [(k, v)]

/-- Python `del dict[name]`. -/
def dictDel (l : List (String × Project)) (k : String) : List (String × Project) :=
  l.filter (fun kv => kv.1 != k)

/-- `ProjectManager.create_project`.  The checks run in source order:
empty name, project cap, duplicate name. -/
def create_project (maxProjects : Nat) (m : Manager) (name description : String) :
    Except ToDoError Project × Manager :=
  if name = "" || pyStrip name = "" then (.error .emptyProjectName, m)
  else if maxProjects ≤ m.projects.length then (.error (.maxProjects maxProjects), m)
  else if dictMem m.projects name then (.error .duplicateProjectName, m)
  else
    let proj : Project := { name := name, description := description, tasks := [] }
    (.ok proj, ⟨dictSet m.projects name proj⟩)

/-- `ProjectManager.delete_project`. -/
def delete_project (m : Manager) (name : String) : Except ToDoError Unit × Manager :=
  if dictMem m.projects name then (.ok (), ⟨dictDel m.projects name⟩)
  else (.error .projectNotFound, m)

/-- `ProjectManager.get_project` (read-only, state returned unchanged by
every caller). -/
def get_project (m : Manager) (name : String) : Except ToDoError Project :=
  match dictGet? m.projects name with
  | some p => .ok p
  | none => .error .projectNotFound

/-- `ProjectManager.list_projects`. -/
def list_projects (m : Manager) : List Project :=
  m.projects.map (fun kv => kv.2)

/-- `ProjectManager.update_project`.  When the cleaned new name differs
from the current one, Python mutates the stored object's `name`, binds it
under the new key (appending, since the collision check ruled the key out)
and deletes the old key; the stale value deleted with the old key is
unobservable, so the model renames and re-keys in one step.  The
description is then applied to the same object, i.e. under the final key. -/
def update_project (m : Manager) (currentName : String)
    (newName newDescription : Option String) : Except ToDoError Unit × Manager :=
  match dictGet? m.projects currentName with
  | none => (.error .projectNotFound, m)
  | some proj =>
    let step1 : Except ToDoError (String × Project × Manager) :=
      match newName with
      | none => .ok (currentName, proj, m)
      | some nn =>
        let cleanNew := pyStrip nn
        if cleanNew = "" then .error .emptyNewProjectName
        else if cleanNew ≠ currentName && dictMem m.projects cleanNew then
          .error .duplicateNewProjectName
        else if cleanNew ≠ currentName then
          let renamed := { proj with name := cleanNew }
          .ok (cleanNew, renamed, ⟨dictDel (dictSet m.projects cleanNew renamed) currentName⟩)
        else .ok (currentName, proj, m)
    match step1 with
    | .error e => (.error e, m)
    | .ok (key, proj1, m1) =>
      match newDescription with
      | none => (.ok (), m1)
      | some d => (.ok (), ⟨dictSet m1.projects key { proj1 with description := d }⟩)

/-- `ProjectManager.add_task_to_project`: project lookup, the six field
validations in source order, then `Project.add_task`; the mutated project
is the dict value itself, modelled by writing it back under its key. -/
def add_task_to_project (maxTasks : Nat) (m : Manager)
    (projectName title description deadline status : String) :
    Except ToDoError Task × Manager :=
  match get_project m projectName with
  | .error e => (.error e, m)
  | .ok proj =>
    if pyStrip title = "" then (.error .emptyTaskTitle, m)
    else if 30 < title.length then (.error .titleTooLong, m)
    else if 150 < description.length then (.error .descriptionTooLong, m)
    else if pyStrip deadline = "" then (.error .missingDeadline, m)
    else if ¬ parseDateYMD deadline then (.error .invalidDeadline, m)
    else if ¬ validStatus status then (.error .invalidStatus, m)
    else
      let task : Task :=
        { title := title, description := description, status := status, deadline := deadline }
      match proj.add_task maxTasks task with
      | .error e => (.error e, m)
      | .ok proj2 => (.ok task, ⟨dictSet m.projects projectName proj2⟩)

/-- `ProjectManager.remove_task_from_project`. -/
def remove_task_from_project (m : Manager) (projectName taskTitle : String) :
    Except ToDoError Unit × Manager :=
  match get_project m projectName with
  | .error e => (.error e, m)
  | .ok proj =>
    match proj.remove_task taskTitle with
    | .error e => (.error e, m)
    | .ok proj2 => (.ok (), ⟨dictSet m.projects projectName proj2⟩)

/-- Replace the first task carrying the looked-up title (the slot
`get_task` returned a reference into). -/
def replaceFirst : List Task → String → Task → List Task
  | [], _, _ => []
  | u :: rest, title, t =>
    if u.title == title then t :: rest else u :: replaceFirst rest title t

/-- Write the (mutated) task object back into the manager: Python mutates
it in place through the reference `get_task` returned, which lives in the
task list of the project stored under the key. -/
def writeTask (m : Manager) (projectName taskTitle : String) (t : Task) : Manager :=
  ⟨m.projects.map (fun kv =>
    if kv.1 == projectName then
      (kv.1, { kv.2 with tasks := replaceFirst kv.2.tasks taskTitle t })
    else kv)⟩

/-- `ProjectManager.update_task`.  Field updates are applied sequentially
to the shared task object (`if new_title:` and `if new_status:` are Python
truthiness tests, so a provided empty string skips those two); a deadline
or status failure raises after the earlier assignments already happened,
so the post-state keeps them. -/
def update_task (m : Manager) (projectName taskTitle : String)
    (newTitle newDescription newDeadline newStatus : Option String) :
    Except ToDoError Unit × Manager :=
  match get_project m projectName with
  | .error e => (.error e, m)
  | .ok proj =>
    match proj.get_task taskTitle with
    | .error e => (.error e, m)
    | .ok task =>
      let t1 := match newTitle with
        | some s => if s ≠ "" then { task with title := pyStrip s } else task
        | none => task
      let t2 := match newDescription with
        | some d => { t1 with description := d }
        | none => t1
      let afterDeadline : Except ToDoError Task :=
        match newDeadline with
        | some dl =>
          if parseDateYMD dl then .ok { t2 with deadline := dl }
          else .error .invalidDeadlineFormat
        | none => .ok t2
      match afterDeadline with
      | .error e => (.error e, writeTask m projectName taskTitle t2)
      | .ok t3 =>
        match newStatus with
        | some s =>
          if s ≠ "" then
            match t3.mark_status s with
            | .ok t4 => (.ok (), writeTask m projectName taskTitle t4)
            | .error e => (.error e, writeTask m projectName taskTitle t3)
          else (.ok (), writeTask m projectName taskTitle t3)
        | none => (.ok (), writeTask m projectName taskTitle t3)

/-- Run a sequence of `create_project` calls (name/description pairs) from
a starting state; a failed call leaves the state as the call returned it. -/
def runCreates (maxProjects : Nat) : List (String × String) → Manager → Manager
  | [], m => m
  | (name, desc) :: rest, m =>
    runCreates maxProjects rest (create_project maxProjects m name desc).2

/-- The validation order the specification states for `addTaskToProject`:
the first violated check determines the error, `none` when all six field
checks pass. -/
def specAddTaskFirstError (title description deadline status : String) : Option ToDoError :=
  if pyStrip title = "" then some .emptyTaskTitle
  else if 30 < title.length then some .titleTooLong
  else if 150 < description.length then some .descriptionTooLong
  else if pyStrip deadline = "" then some .missingDeadline
  else if ¬ parseDateYMD deadline then some .invalidDeadline
  else if ¬ validStatus status then some .invalidStatus
  else none

theorem dictMem_cons (kv : String × Project) (rest : List (String × Project)) (k : String) :
    dictMem (kv :: rest) k = ((kv.1 == k) || dictMem rest k) := by
  simp [dictMem]

theorem dictGet?_cons (kv : String × Project) (rest : List (String × Project)) (k : String) :
    dictGet? (kv :: rest) k = if kv.1 = k then some kv.2 else dictGet? rest k := by
  by_cases h : kv.1 = k <;> simp [dictGet?, List.find?_cons, h]

theorem dictDel_cons (kv : String × Project) (rest : List (String × Project)) (k : String) :
    dictDel (kv :: rest) k = if kv.1 = k then dictDel rest k else kv :: dictDel rest k := by
  by_cases h : kv.1 = k <;> simp [dictDel, List.filter_cons, h]

theorem dictGet?_eq_none_of_not_mem {l : List (String × Project)} {k : String}
    (h : dictMem l k = false) : dictGet? l k = none := by
  induction l with
  | nil => rfl
  | cons kv rest ih =>
    rw [dictMem_cons, Bool.or_eq_false_iff] at h
    have hk : ¬ kv.1 = k := by simpa using h.1
    rw [dictGet?_cons, if_neg hk]
    exact ih h.2

theorem dictMem_eq_true_of_get? {l : List (String × Project)} {k : String} {p : Project}
    (h : dictGet? l k = some p) : dictMem l k = true := by
  by_contra hc
  rw [dictGet?_eq_none_of_not_mem (Bool.not_eq_true _ ▸ hc)] at h
  exact Option.noConfusion h

theorem dictGet?_del_self (l : List (String × Project)) (k : String) :
    dictGet? (dictDel l k) k = none := by
  induction l with
  | nil => rfl
  | cons kv rest ih =>
    rw [dictDel_cons]
    by_cases h : kv.1 = k
    · rw [if_pos h]; exact ih
    · rw [if_neg h, dictGet?_cons, if_neg h]; exact ih

theorem dictGet?_del_ne (l : List (String × Project)) {k kx : String} (h : kx ≠ k) :
    dictGet? (dictDel l k) kx = dictGet? l kx := by
  induction l with
  | nil => rfl
  | cons kv rest ih =>
    rw [dictDel_cons]
    by_cases hk : kv.1 = k
    · have hkx : ¬ kv.1 = kx := fun he => h (he ▸ hk)
      rw [if_pos hk, dictGet?_cons, if_neg hkx]
      exact ih
    · rw [if_neg hk, dictGet?_cons, dictGet?_cons]
      by_cases hkx : kv.1 = kx
      · rw [if_pos hkx, if_pos hkx]
      · rw [if_neg hkx, if_neg hkx]; exact ih

theorem dictGet?_append_single_self {l : List (String × Project)} {k : String} (v : Project)
    (h : dictMem l k = false) : dictGet? (l ++ [(k, v)]) k = some v := by
  induction l with
  | nil => simp [dictGet?, List.find?_cons]
  | cons kv rest ih =>
    rw [dictMem_cons, Bool.or_eq_false_iff] at h
    have hk : ¬ kv.1 = k := by simpa using h.1
    rw [List.cons_append, dictGet?_cons, if_neg hk]
    exact ih h.2

theorem dictSet_eq_append {l : List (String × Project)} {k : String} (v : Project)
    (h : dictMem l k = false) : dictSet l k v = l ++ [(k, v)] := by
  simp [dictSet, h]

theorem dictGet?_set_self {l : List (String × Project)} {k : String} (v : Project)
    (h : dictMem l k = true) : dictGet? (dictSet l k v) k = some v := by
  rw [dictSet, if_pos h]
  revert h
  induction l with
  | nil => intro h; simp [dictMem] at h
  | cons kv rest ih =>
    intro h
    simp only [List.map_cons]
    by_cases hk : kv.1 = k
    · rw [if_pos (by simp [hk]), dictGet?_cons, if_pos rfl]
    · rw [if_neg (by simp [hk]), dictGet?_cons, if_neg hk]
      apply ih
      rw [dictMem_cons] at h
      simpa [hk] using h

theorem pyStrip_empty : pyStrip "" = "" := rfl

theorem create_project_length_le {maxP : Nat} {m : Manager} {name desc : String}
    (h : m.projects.length ≤ maxP) :
    ((create_project maxP m name desc).2).projects.length ≤ maxP := by
  unfold create_project
  split_ifs with h1 h2 h3
  · exact h
  · exact h
  · exact h
  · have hmem : dictMem m.projects name = false := by simpa using h3
    simp only [dictSet_eq_append _ hmem, List.length_append, List.length_singleton]
    omega

theorem runCreates_length_le (maxP : Nat) (calls : List (String × String)) (m : Manager)
    (h : m.projects.length ≤ maxP) :
    (runCreates maxP calls m).projects.length ≤ maxP := by
  induction calls generalizing m with
  | nil => exact h
  | cons c rest ih => exact ih _ (create_project_length_le h)

/-- Claim C4: starting from the empty manager, no sequence of
`createProject` calls ever leaves more than the configured cap of projects
in the mapping; and once the mapping holds (at least) the cap many
projects, a further `createProject` with a distinct name that is non-empty
after trimming fails with the capacity error and leaves the state exactly
as it was. -/
theorem createProject_cap_invariant (maxP : Nat) :
    (∀ calls : List (String × String),
      (runCreates maxP calls ⟨[]⟩).projects.length ≤ maxP) ∧
    (∀ (m : Manager) (name desc : String),
      maxP ≤ m.projects.length → pyStrip name ≠ "" → dictMem m.projects name = false →
      create_project maxP m name desc = (.error (.maxProjects maxP), m)) := by
  constructor
  · intro calls
    exact runCreates_length_le maxP calls ⟨[]⟩ (by simp)
  · intro m name desc hlen hname _hdistinct
    have hne : name ≠ "" := fun he => hname (by rw [he]; rfl)
    unfold create_project
    rw [if_neg (by simp [hne, hname]), if_pos hlen]

theorem createProject_cap_invariant_witness :
    (runCreates 2 [("A", ""), ("B", ""), ("C", "")] ⟨[]⟩).projects.length ≤ 2 ∧
    create_project 2
      ⟨[("A", { name := "A", description := "", tasks := [] }),
        ("B", { name := "B", description := "", tasks := [] })]⟩ "C" "" =
      (.error (.maxProjects 2),
       ⟨[("A", { name := "A", description := "", tasks := [] }),
         ("B", { name := "B", description := "", tasks := [] })]⟩) :=
  ⟨(createProject_cap_invariant 2).1 [("A", ""), ("B", ""), ("C", "")],
   (createProject_cap_invariant 2).2
     ⟨[("A", { name := "A", description := "", tasks := [] }),
       ("B", { name := "B", description := "", tasks := [] })]⟩ "C" ""
     (by decide) (by decide) (by decide)⟩

/-- Claim C1: the title-uniqueness invariant is the spec's stated intent,
but `update_task` violates it (the gap its own design notes flag): renaming
task "a" to the sibling title "b" succeeds and leaves project "P" with two
tasks titled "b", so the titles are no longer pairwise distinct. -/
theorem updateTask_breaks_title_uniqueness :
    let m : Manager := ⟨[("P", { name := "P", description := "", tasks :=
      [{ title := "a", description := "", status := "todo", deadline := "2025-01-01" },
       { title := "b", description := "", status := "todo", deadline := "2025-01-02" }] })]⟩
    let r := update_task m "P" "a" (some "b") none none none
    r.1 = .ok () ∧
    (dictGet? r.2.projects "P").map (fun p => p.tasks.map Task.title) = some ["b", "b"] ∧
    ¬ (["b", "b"] : List String).Nodup := by
  decide

/-- Claim C2, counterexample: the capacity check runs before the duplicate
check in both `create_project` and `Project.add_task`, so at the cap a
colliding `createProject` fails with the capacity error, not DuplicateName,
and a colliding `add_task` fails with the capacity error, not
DuplicateTitle. -/
theorem duplicate_fails_capacity_first :
    create_project 1 ⟨[("A", { name := "A", description := "", tasks := [] })]⟩ "A" "" =
      (.error (.maxProjects 1), ⟨[("A", { name := "A", description := "", tasks := [] })]⟩) ∧
    ToDoError.maxProjects 1 ≠ ToDoError.duplicateProjectName ∧
    add_task_to_project 1
      ⟨[("A", { name := "A", description := "", tasks :=
        [{ title := "X", description := "", status := "todo", deadline := "2025-01-01" }] })]⟩
      "A" "X" "" "2025-01-01" "todo" =
      (.error (.maxTasks 1),
       ⟨[("A", { name := "A", description := "", tasks :=
         [{ title := "X", description := "", status := "todo", deadline := "2025-01-01" }] })]⟩) ∧
    ToDoError.maxTasks 1 ≠ ToDoError.duplicateTaskTitle := by
  refine ⟨by decide, by decide, ?_, by decide⟩
  decide

/-- Claim C3, counterexample: `update_task` tests the raw string for
truthiness, not the trimmed one, so a whitespace-only newTitle is applied:
the task titled "a" ends with the empty title instead of keeping "a". -/
theorem updateTask_whitespace_title_applied :
    let m : Manager := ⟨[("P", { name := "P", description := "", tasks :=
      [{ title := "a", description := "", status := "todo", deadline := "2025-01-01" }] })]⟩
    let r := update_task m "P" "a" (some "  ") none none none
    r.1 = .ok () ∧
    (dictGet? r.2.projects "P").map (fun p => p.tasks.map Task.title) = some [""] ∧
    ("" : String) ≠ "a" := by
  decide

/-- Claim C6, counterexample: a whitespace-only deadline does not parse as
a date, yet the call fails with MissingDeadline (the non-empty-after-trim
check fires first), not InvalidDeadline. -/
theorem whitespace_deadline_missing_not_invalid :
    add_task_to_project 50 ⟨[("A", { name := "A", description := "", tasks := [] })]⟩
      "A" "X" "" "   " "todo" =
      (.error .missingDeadline, ⟨[("A", { name := "A", description := "", tasks := [] })]⟩) ∧
    parseDateYMD "   " = false ∧
    ToDoError.missingDeadline ≠ ToDoError.invalidDeadline := by
  refine ⟨by decide, by decide, by decide⟩


theorem get_project_ok_iff {m : Manager} {pname : String} {proj : Project} :
    get_project m pname = .ok proj ↔ dictGet? m.projects pname = some proj := by
  unfold get_project
  cases h : dictGet? m.projects pname <;> simp

theorem find?_title_append_self {l : List Task} {t : Task}
    (h : l.any (fun u => u.title == t.title) = false) :
    (l ++ [t]).find? (fun u => u.title == t.title) = some t := by
  induction l with
  | nil => simp [List.find?_cons]
  | cons u rest ih =>
    rw [List.any_cons, Bool.or_eq_false_iff] at h
    rw [List.cons_append, List.find?_cons, h.1]
    exact ih h.2

theorem replaceFirst_self {l : List Task} {tt : String} {task : Task}
    (h : l.find? (fun u => u.title == tt) = some task) : replaceFirst l tt task = l := by
  induction l with
  | nil => exact Option.noConfusion h
  | cons u rest ih =>
    rw [List.find?_cons] at h
    cases hb : (u.title == tt) with
    | true =>
      rw [hb] at h
      injection h with h
      rw [replaceFirst, if_pos hb, h]
    | false =>
      rw [hb] at h
      rw [replaceFirst, if_neg (by simp [hb])]
      rw [ih h]

theorem writeTask_untouched (pname tt : String) (t : Task) (l : List (String × Project))
    (h : ∀ kv ∈ l, ¬ kv.1 = pname) :
    l.map (fun kv =>
      if kv.1 == pname then (kv.1, { kv.2 with tasks := replaceFirst kv.2.tasks tt t })
      else kv) = l := by
  induction l with
  | nil => rfl
  | cons kv rest ih =>
    rw [List.map_cons, if_neg (by simp [h kv (List.mem_cons_self kv rest)]),
      ih (fun kv2 hm => h kv2 (List.mem_cons_of_mem kv hm))]

/-- Writing the task read by `get_task` back unchanged is a no-op (the
manager's keys are pairwise distinct in every reachable state). -/
theorem writeTask_self {m : Manager} {pname tt : String} {proj : Project} {task : Task}
    (hnodup : (m.projects.map Prod.fst).Nodup)
    (hp : dictGet? m.projects pname = some proj)
    (ht : proj.tasks.find? (fun u => u.title == tt) = some task) :
    writeTask m pname tt task = m := by
  obtain ⟨l⟩ := m
  unfold writeTask
  congr 1
  dsimp only at hp hnodup
  induction l with
  | nil => rfl
  | cons kv rest ih =>
    rw [List.map_cons, List.nodup_cons] at hnodup
    rw [dictGet?_cons] at hp
    by_cases hk : kv.1 = pname
    · rw [if_pos hk] at hp
      injection hp with hproj
      have hrep : replaceFirst kv.2.tasks tt task = kv.2.tasks :=
        replaceFirst_self (hproj ▸ ht)
      have hrest : ∀ kv2 ∈ rest, ¬ kv2.1 = pname := by
        intro kv2 hm he
        exact hnodup.1 (hk ▸ he ▸ List.mem_map_of_mem Prod.fst hm)
      rw [List.map_cons, if_pos (by simp [hk]), hrep,
        writeTask_untouched pname tt task rest hrest]
    · rw [if_neg hk] at hp
      rw [List.map_cons, if_neg (by simp [hk]), ih hnodup.2 hp]

/-- Claim C5: on an existing project, `add_task_to_project` performs the
six field checks in exactly the spec's order and fails fast with the first
violated check's error (`specAddTaskFirstError`); when all six pass, the
outcome is the new task or one of the two checks delegated to
`Project.add_task` (capacity, duplicate title). -/
theorem addTask_validation_order (maxT : Nat) (m : Manager) (pname title desc dl st : String)
    (proj : Project) (hp : get_project m pname = .ok proj) :
    (∀ e, specAddTaskFirstError title desc dl st = some e →
      add_task_to_project maxT m pname title desc dl st = (.error e, m)) ∧
    (specAddTaskFirstError title desc dl st = none →
      (add_task_to_project maxT m pname title desc dl st).1 =
          .ok { title := title, description := desc, status := st, deadline := dl } ∨
        (add_task_to_project maxT m pname title desc dl st).1 = .error (.maxTasks maxT) ∨
        (add_task_to_project maxT m pname title desc dl st).1 = .error .duplicateTaskTitle) := by
  unfold add_task_to_project specAddTaskFirstError
  rw [hp]
  dsimp only
  constructor
  · intro e he
    split_ifs at he ⊢ with h1 h2 h3 h4 h5 h6
    · cases he; rfl
    · cases he; rfl
    · cases he; rfl
    · cases he; rfl
    · cases he; rfl
    · cases he; rfl
  · intro hnone
    split_ifs at hnone ⊢ with h1 h2 h3 h4 h5 h6
    unfold Project.add_task
    split_ifs with ha hb
    · right; left; rfl
    · right; right; rfl
    · left; rfl

theorem addTask_validation_order_witness :
    get_project ⟨[("A", { name := "A", description := "", tasks := [] })]⟩ "A" =
      .ok { name := "A", description := "", tasks := [] } ∧
    specAddTaskFirstError "AAAAAAAAAAAAAAAAAAAAAAAAAAAAAAA" "" "bad" "nope" =
      some .titleTooLong ∧
    add_task_to_project 50 ⟨[("A", { name := "A", description := "", tasks := [] })]⟩
      "A" "AAAAAAAAAAAAAAAAAAAAAAAAAAAAAAA" "" "bad" "nope" =
      (.error .titleTooLong, ⟨[("A", { name := "A", description := "", tasks := [] })]⟩) :=
  ⟨by decide, by decide,
   (addTask_validation_order 50 ⟨[("A", { name := "A", description := "", tasks := [] })]⟩
     "A" "AAAAAAAAAAAAAAAAAAAAAAAAAAAAAAA" "" "bad" "nope"
     { name := "A", description := "", tasks := [] } (by decide)).1
     .titleTooLong (by decide)⟩

/-- Claim C6, amended: when the earlier checks pass (title non-empty after
trim and at most 30 characters, description at most 150 characters,
deadline non-empty after trim) and the deadline does not parse as a
YYYY-MM-DD date, `add_task_to_project` fails with InvalidDeadline and
returns the state unchanged (no task is constructed or appended); a
whitespace-only unparseable deadline instead fails MissingDeadline. -/
theorem addTask_invalid_deadline (maxT : Nat) (m : Manager) (pname title desc dl st : String)
    (proj : Project) (hp : get_project m pname = .ok proj)
    (h1 : pyStrip title ≠ "") (h2 : title.length ≤ 30) (h3 : desc.length ≤ 150)
    (h4 : pyStrip dl ≠ "") (h5 : parseDateYMD dl = false) :
    add_task_to_project maxT m pname title desc dl st = (.error .invalidDeadline, m) := by
  unfold add_task_to_project
  rw [hp]
  dsimp only
  rw [if_neg h1, if_neg (by omega), if_neg (by omega), if_neg h4, if_pos (by simp [h5])]

theorem addTask_invalid_deadline_witness :
    parseDateYMD "not-a-date" = false ∧
    add_task_to_project 50 ⟨[("A", Project.mk "A" "" [])]⟩ "A" "X" "" "not-a-date" "todo" =
      (.error .invalidDeadline, ⟨[("A", Project.mk "A" "" [])]⟩) :=
  ⟨by decide,
   addTask_invalid_deadline 50 ⟨[("A", Project.mk "A" "" [])]⟩
     "A" "X" "" "not-a-date" "todo" (Project.mk "A" "" [])
     (by decide) (by decide) (by decide) (by decide) (by decide) (by decide)⟩

/-- Claim C7: a successful rename (new name non-empty after trimming,
different from the current name, colliding with no other project) returns
ok, keeps the project's task list and description exactly as they were
(only the name field changes), makes the old name fail NotFound, and makes
the new name resolve to the project. -/
theorem rename_preserves_project (m : Manager) (cur nn : String) (proj : Project)
    (hp : dictGet? m.projects cur = some proj)
    (hne : pyStrip nn ≠ "") (hdiff : pyStrip nn ≠ cur)
    (hmem : dictMem m.projects (pyStrip nn) = false) :
    (update_project m cur (some nn) none).1 = .ok () ∧
    get_project (update_project m cur (some nn) none).2 cur = .error .projectNotFound ∧
    get_project (update_project m cur (some nn) none).2 (pyStrip nn) =
      .ok { proj with name := pyStrip nn } := by
  unfold update_project
  rw [hp]
  dsimp only
  rw [if_neg hne, if_neg (by simp [hmem]), if_pos hdiff]
  refine ⟨rfl, ?_, ?_⟩
  · unfold get_project
    dsimp only
    rw [dictGet?_del_self]
  · unfold get_project
    dsimp only
    rw [dictGet?_del_ne _ hdiff, dictSet_eq_append _ hmem,
      dictGet?_append_single_self _ hmem]

theorem rename_preserves_project_witness :
    dictGet? [("A", Project.mk "A" "d" [Task.mk "t" "" "todo" "2025-01-01"])] "A" =
      some (Project.mk "A" "d" [Task.mk "t" "" "todo" "2025-01-01"]) ∧
    (update_project ⟨[("A", Project.mk "A" "d" [Task.mk "t" "" "todo" "2025-01-01"])]⟩
        "A" (some "B") none).1 = .ok () ∧
    get_project (update_project
        ⟨[("A", Project.mk "A" "d" [Task.mk "t" "" "todo" "2025-01-01"])]⟩
        "A" (some "B") none).2 "A" = .error .projectNotFound ∧
    get_project (update_project
        ⟨[("A", Project.mk "A" "d" [Task.mk "t" "" "todo" "2025-01-01"])]⟩
        "A" (some "B") none).2 "B" =
      .ok (Project.mk "B" "d" [Task.mk "t" "" "todo" "2025-01-01"]) := by
  have h := rename_preserves_project
    ⟨[("A", Project.mk "A" "d" [Task.mk "t" "" "todo" "2025-01-01"])]⟩ "A" "B"
    (Project.mk "A" "d" [Task.mk "t" "" "todo" "2025-01-01"])
    (by decide) (by decide) (by decide) (by decide)
  exact ⟨by decide, h.1, h.2.1, h.2.2⟩

/-- Claim C8: deleting an existing project succeeds; afterwards
`get_project` on its name fails NotFound and every task operation routed
through that name (`update_task`, `remove_task_from_project`,
`add_task_to_project`) fails NotFound as well — its tasks were discarded
with the single owning container; deleting an absent name fails NotFound
and leaves the state unchanged. -/
theorem deleteProject_cascade (m : Manager) (p : String) (hmem : dictMem m.projects p = true) :
    (delete_project m p).1 = .ok () ∧
    get_project (delete_project m p).2 p = .error .projectNotFound ∧
    (∀ tt nt nd ndl ns, update_task (delete_project m p).2 p tt nt nd ndl ns =
      (.error .projectNotFound, (delete_project m p).2)) ∧
    (∀ tt, remove_task_from_project (delete_project m p).2 p tt =
      (.error .projectNotFound, (delete_project m p).2)) ∧
    (∀ maxT ti de dl st, add_task_to_project maxT (delete_project m p).2 p ti de dl st =
      (.error .projectNotFound, (delete_project m p).2)) ∧
    (∀ q, dictMem m.projects q = false →
      delete_project m q = (.error .projectNotFound, m)) := by
  have hdel : (delete_project m p).2 = ⟨dictDel m.projects p⟩ := by
    unfold delete_project
    rw [if_pos hmem]
  have hget : get_project (delete_project m p).2 p = .error .projectNotFound := by
    rw [hdel]
    unfold get_project
    dsimp only
    rw [dictGet?_del_self]
  refine ⟨?_, hget, ?_, ?_, ?_, ?_⟩
  · unfold delete_project
    rw [if_pos hmem]
  · intro tt nt nd ndl ns
    unfold update_task
    rw [hget]
  · intro tt
    unfold remove_task_from_project
    rw [hget]
  · intro maxT ti de dl st
    unfold add_task_to_project
    rw [hget]
  · intro q hq
    unfold delete_project
    rw [if_neg (by simp [hq])]

theorem deleteProject_cascade_witness :
    dictMem [("A", Project.mk "A" "" [Task.mk "t" "" "todo" "2025-01-01"])] "A" = true ∧
    (delete_project ⟨[("A", Project.mk "A" "" [Task.mk "t" "" "todo" "2025-01-01"])]⟩
        "A").1 = .ok () ∧
    get_project (delete_project
        ⟨[("A", Project.mk "A" "" [Task.mk "t" "" "todo" "2025-01-01"])]⟩ "A").2 "A" =
      .error .projectNotFound ∧
    update_task (delete_project
        ⟨[("A", Project.mk "A" "" [Task.mk "t" "" "todo" "2025-01-01"])]⟩ "A").2
        "A" "t" none none none none =
      (.error .projectNotFound,
       (delete_project
         ⟨[("A", Project.mk "A" "" [Task.mk "t" "" "todo" "2025-01-01"])]⟩ "A").2) := by
  have h := deleteProject_cascade
    ⟨[("A", Project.mk "A" "" [Task.mk "t" "" "todo" "2025-01-01"])]⟩ "A" (by decide)
  exact ⟨by decide, h.1, h.2.1, h.2.2.1 "t" none none none none⟩

/-- Claim C2, amended: a colliding `createProject` or `addTask` always
fails and leaves the prior state unchanged, but the error depends on the
cap: DuplicateName/DuplicateTitle only below the respective cap (for
addTask, when the call's field validations pass), the capacity error once
the cap is reached, because the capacity check runs first. -/
theorem duplicate_always_fails (maxP maxT : Nat) (m : Manager) :
    (∀ name desc proj, dictGet? m.projects name = some proj → pyStrip name ≠ "" →
      (m.projects.length < maxP →
        create_project maxP m name desc = (.error .duplicateProjectName, m)) ∧
      (maxP ≤ m.projects.length →
        create_project maxP m name desc = (.error (.maxProjects maxP), m))) ∧
    (∀ pname proj title de dl st, get_project m pname = .ok proj →
      proj.tasks.any (fun u => u.title == title) = true →
      pyStrip title ≠ "" → title.length ≤ 30 → de.length ≤ 150 →
      pyStrip dl ≠ "" → parseDateYMD dl = true → validStatus st = true →
      (proj.tasks.length < maxT →
        add_task_to_project maxT m pname title de dl st = (.error .duplicateTaskTitle, m)) ∧
      (maxT ≤ proj.tasks.length →
        add_task_to_project maxT m pname title de dl st = (.error (.maxTasks maxT), m))) := by
  constructor
  · intro name desc proj hget hname
    have hne : name ≠ "" := fun he => hname (by rw [he]; rfl)
    have hmem : dictMem m.projects name = true := dictMem_eq_true_of_get? hget
    unfold create_project
    constructor
    · intro hlt
      rw [if_neg (by simp [hne, hname]), if_neg (by omega), if_pos hmem]
    · intro hge
      rw [if_neg (by simp [hne, hname]), if_pos hge]
  · intro pname proj title de dl st hget hdup h1 h2 h3 h4 h5 h6
    unfold add_task_to_project
    rw [hget]
    dsimp only
    rw [if_neg h1, if_neg (by omega), if_neg (by omega), if_neg h4,
      if_neg (by simp [h5]), if_neg (by simp [h6])]
    unfold Project.add_task
    constructor
    · intro hlt
      rw [if_neg (by omega), if_pos hdup]
    · intro hge
      rw [if_pos hge]

theorem duplicate_always_fails_witness :
    create_project 10 ⟨[("A", Project.mk "A" "" [])]⟩ "A" "x" =
      (.error .duplicateProjectName, ⟨[("A", Project.mk "A" "" [])]⟩) ∧
    add_task_to_project 50
      ⟨[("A", Project.mk "A" "" [Task.mk "X" "" "todo" "2025-01-01"])]⟩
      "A" "X" "" "2025-01-01" "todo" =
      (.error .duplicateTaskTitle,
       ⟨[("A", Project.mk "A" "" [Task.mk "X" "" "todo" "2025-01-01"])]⟩) :=
  ⟨((duplicate_always_fails 10 50 ⟨[("A", Project.mk "A" "" [])]⟩).1 "A" "x"
      (Project.mk "A" "" []) (by decide) (by decide)).1 (by decide),
   ((duplicate_always_fails 10 50
      ⟨[("A", Project.mk "A" "" [Task.mk "X" "" "todo" "2025-01-01"])]⟩).2 "A"
      (Project.mk "A" "" [Task.mk "X" "" "todo" "2025-01-01"]) "X" "" "2025-01-01" "todo"
      (by decide) (by decide) (by decide) (by decide) (by decide) (by decide)
      (by decide) (by decide)).1 (by decide)⟩

/-- Claim C3, amended: `updateTask` applies `newTitle` whenever it is
provided and non-empty as a raw string (Python truthiness), replacing the
title by the trimmed value with no sibling-uniqueness re-check — so a
whitespace-only `newTitle` sets the title to the empty string; only an
absent or empty-string `newTitle` leaves the title (and the whole state)
unchanged. -/
theorem updateTask_title_rule (m : Manager) (pname tt : String) (proj : Project) (task : Task)
    (hnodup : (m.projects.map Prod.fst).Nodup)
    (hp : dictGet? m.projects pname = some proj)
    (ht : proj.get_task tt = .ok task) :
    (∀ s, s ≠ "" →
      update_task m pname tt (some s) none none none =
        (.ok (), writeTask m pname tt { task with title := pyStrip s })) ∧
    update_task m pname tt (some "") none none none = (.ok (), m) ∧
    update_task m pname tt none none none none = (.ok (), m) := by
  have hgp : get_project m pname = .ok proj := get_project_ok_iff.mpr hp
  have htf : proj.tasks.find? (fun u => u.title == tt) = some task := by
    unfold Project.get_task at ht
    cases h : proj.tasks.find? (fun u => u.title == tt) <;> rw [h] at ht
    · exact Except.noConfusion ht
    · injection ht with h2; rw [h2]
  have hws : writeTask m pname tt task = m := writeTask_self hnodup hp htf
  refine ⟨?_, ?_, ?_⟩
  · intro s hs
    unfold update_task
    rw [hgp]
    dsimp only
    rw [ht]
    dsimp only
    rw [if_pos hs]
  · unfold update_task
    rw [hgp]
    dsimp only
    rw [ht]
    dsimp only
    rw [if_neg (by simp), hws]
  · unfold update_task
    rw [hgp]
    dsimp only
    rw [ht]
    dsimp only
    rw [hws]

theorem updateTask_title_rule_witness :
    update_task ⟨[("P", Project.mk "P" "" [Task.mk "a" "" "todo" "2025-01-01"])]⟩
      "P" "a" (some " b ") none none none =
      (.ok (), writeTask ⟨[("P", Project.mk "P" "" [Task.mk "a" "" "todo" "2025-01-01"])]⟩
        "P" "a" (Task.mk (pyStrip " b ") "" "todo" "2025-01-01")) ∧
    update_task ⟨[("P", Project.mk "P" "" [Task.mk "a" "" "todo" "2025-01-01"])]⟩
      "P" "a" none none none none =
      (.ok (), ⟨[("P", Project.mk "P" "" [Task.mk "a" "" "todo" "2025-01-01"])]⟩) := by
  have h := updateTask_title_rule
    ⟨[("P", Project.mk "P" "" [Task.mk "a" "" "todo" "2025-01-01"])]⟩ "P" "a"
    (Project.mk "P" "" [Task.mk "a" "" "todo" "2025-01-01"])
    (Task.mk "a" "" "todo" "2025-01-01") (by decide) (by decide) (by decide)
  exact ⟨h.1 " b " (by decide), h.2.2⟩

/-- Claim C9: a successful `addTaskToProject` stores a task whose four
fields are exactly the inputs, and an immediate `get_task` with the given
title on the stored project returns that very task; and `updateTask` with
all four optional fields absent returns ok and leaves the whole manager
state unchanged. -/
theorem addTask_roundtrip_and_noop_update (maxT : Nat) (m m2 : Manager)
    (pname title de dl st tt : String) (t : Task) (proj0 : Project) (task0 : Task)
    (hnodup : (m.projects.map Prod.fst).Nodup) :
    (add_task_to_project maxT m pname title de dl st = (.ok t, m2) →
      t.title = title ∧ t.description = de ∧ t.deadline = dl ∧ t.status = st ∧
      ∃ proj2, get_project m2 pname = .ok proj2 ∧ proj2.get_task title = .ok t) ∧
    (dictGet? m.projects pname = some proj0 → proj0.get_task tt = .ok task0 →
      update_task m pname tt none none none none = (.ok (), m)) := by
  constructor
  · intro hadd
    unfold add_task_to_project at hadd
    cases hg : get_project m pname with
    | error e =>
      rw [hg] at hadd
      exact Except.noConfusion (congrArg Prod.fst hadd)
    | ok proj =>
      rw [hg] at hadd
      dsimp only at hadd
      split_ifs at hadd with h1 h2 h3 h4 h5 h6 <;>
        try exact Except.noConfusion (congrArg Prod.fst hadd)
      unfold Project.add_task at hadd
      split_ifs at hadd with ha hb <;>
        try exact Except.noConfusion (congrArg Prod.fst hadd)
      · have ht : t = { title := title, description := de, status := st, deadline := dl } := by
          have h7 := congrArg Prod.fst hadd
          dsimp only at h7
          injection h7 with h8
          rw [h8]
        have hm2 : m2 = ⟨dictSet m.projects pname
            { proj with tasks := proj.tasks ++
              [{ title := title, description := de, status := st, deadline := dl }] }⟩ := by
          have h7 := congrArg Prod.snd hadd
          dsimp only at h7
          rw [h7]
        have hmem : dictMem m.projects pname = true :=
          dictMem_eq_true_of_get? (get_project_ok_iff.mp hg)
        subst ht
        refine ⟨rfl, rfl, rfl, rfl, ?_⟩
        refine ⟨{ proj with tasks := proj.tasks ++
          [{ title := title, description := de, status := st, deadline := dl }] }, ?_, ?_⟩
        · rw [hm2]
          exact get_project_ok_iff.mpr (dictGet?_set_self _ hmem)
        · have hb2 : proj.tasks.any (fun u => u.title ==
              ({ title := title, description := de, status := st,
                  deadline := dl } : Task).title) = false := by
            simpa using hb
          have hfind := find?_title_append_self hb2
          dsimp only at hfind
          unfold Project.get_task
          dsimp only
          rw [hfind]
  · intro hp0 ht0
    have htf : proj0.tasks.find? (fun u => u.title == tt) = some task0 := by
      unfold Project.get_task at ht0
      cases h : proj0.tasks.find? (fun u => u.title == tt) <;> rw [h] at ht0
      · exact Except.noConfusion ht0
      · injection ht0 with h2; rw [h2]
    have hws : writeTask m pname tt task0 = m := writeTask_self hnodup hp0 htf
    unfold update_task
    rw [get_project_ok_iff.mpr hp0]
    dsimp only
    rw [ht0]
    dsimp only
    rw [hws]

theorem addTask_roundtrip_and_noop_update_witness :
    ((Task.mk "Buy milk" "" "todo" "2025-01-01").title = "Buy milk" ∧
     (Task.mk "Buy milk" "" "todo" "2025-01-01").description = "" ∧
     (Task.mk "Buy milk" "" "todo" "2025-01-01").deadline = "2025-01-01" ∧
     (Task.mk "Buy milk" "" "todo" "2025-01-01").status = "todo" ∧
     ∃ proj2, get_project
         ⟨[("A", Project.mk "A" "" [Task.mk "t0" "" "todo" "2025-01-01",
                                    Task.mk "Buy milk" "" "todo" "2025-01-01"])]⟩ "A" =
         .ok proj2 ∧
       proj2.get_task "Buy milk" = .ok (Task.mk "Buy milk" "" "todo" "2025-01-01")) ∧
    update_task ⟨[("A", Project.mk "A" "" [Task.mk "t0" "" "todo" "2025-01-01"])]⟩
      "A" "t0" none none none none =
      (.ok (), ⟨[("A", Project.mk "A" "" [Task.mk "t0" "" "todo" "2025-01-01"])]⟩) := by
  have h := addTask_roundtrip_and_noop_update 50
    ⟨[("A", Project.mk "A" "" [Task.mk "t0" "" "todo" "2025-01-01"])]⟩
    ⟨[("A", Project.mk "A" "" [Task.mk "t0" "" "todo" "2025-01-01",
                               Task.mk "Buy milk" "" "todo" "2025-01-01"])]⟩
    "A" "Buy milk" "" "2025-01-01" "todo" "t0"
    (Task.mk "Buy milk" "" "todo" "2025-01-01")
    (Project.mk "A" "" [Task.mk "t0" "" "todo" "2025-01-01"])
    (Task.mk "t0" "" "todo" "2025-01-01") (by decide)
  exact ⟨h.1 (by decide), h.2 (by decide) (by decide)⟩

/-- Claim C10: `updateTask` is not atomic on a deadline failure: with a
`newDeadline` that does not parse as YYYY-MM-DD, the call fails with the
invalid-deadline error, yet the stored task already carries the applied
`newTitle` (trimmed, when truthy) and `newDescription`; its deadline and
status fields are the old ones. -/
theorem updateTask_not_atomic_on_bad_deadline (m : Manager) (pname tt dl : String)
    (proj : Project) (task : Task) (nt nd ns : Option String)
    (hp : dictGet? m.projects pname = some proj)
    (ht : proj.get_task tt = .ok task)
    (hdl : parseDateYMD dl = false) :
    update_task m pname tt nt nd (some dl) ns =
      (.error .invalidDeadlineFormat,
       writeTask m pname tt
         { title := (match nt with
             | some s => if s ≠ "" then pyStrip s else task.title
             | none => task.title),
           description := nd.getD task.description,
           status := task.status,
           deadline := task.deadline }) := by
  unfold update_task
  rw [get_project_ok_iff.mpr hp]
  dsimp only
  rw [ht]
  dsimp only
  rw [if_neg (by simp [hdl])]
  cases nt with
  | none =>
    cases nd with
    | none => rfl
    | some d => rfl
  | some s =>
    dsimp only
    by_cases hs : s = ""
    · simp only [if_neg (not_not_intro hs)]
      cases nd with
      | none => rfl
      | some d => rfl
    · simp only [if_pos hs]
      cases nd with
      | none => rfl
      | some d => rfl

theorem updateTask_not_atomic_on_bad_deadline_witness :
    update_task ⟨[("P", Project.mk "P" "" [Task.mk "a" "d0" "todo" "2025-01-01"])]⟩
      "P" "a" (some " T ") (some "D") (some "not-a-date") none =
      (.error .invalidDeadlineFormat,
       writeTask ⟨[("P", Project.mk "P" "" [Task.mk "a" "d0" "todo" "2025-01-01"])]⟩
         "P" "a" (Task.mk (pyStrip " T ") "D" "todo" "2025-01-01")) :=
  updateTask_not_atomic_on_bad_deadline
    ⟨[("P", Project.mk "P" "" [Task.mk "a" "d0" "todo" "2025-01-01"])]⟩ "P" "a" "not-a-date"
    (Project.mk "P" "" [Task.mk "a" "d0" "todo" "2025-01-01"])
    (Task.mk "a" "d0" "todo" "2025-01-01") (some " T ") (some "D") none
    (by decide) (by decide) (by decide)

end ToDoList
